import Mathlib

/-! # KyottoApi: the game catalogue handlers of `src/server.js`

A shallow embedding of the two request handlers of the server,
`POST /api/games` (lines 41-63) and `GET /api/games/search` (lines 69-87),
over an explicit record store.

What the handlers receive from their collaborators is made an explicit input:

* the process environment (`ADMIN_SECRET_KEY`, possibly unset);
* the request (header value, parsed JSON body, query parameter);
* the store client: the id and time stamp it gives a new document, the way its
  schema casts a non-string value, and whether the awaited call rejects;
* the pattern engine behind `new RegExp(searchTerm, 'i')`, with its case table.

The record store is the list of its records in natural (insertion) order.
-/

namespace KyottoApi

/-! ## Data model -/

/-- A JSON value, as `express.json()` leaves it in `req.body`.  A number is kept as
the rational it denotes: the handlers only ever test it against zero. -/
inductive JsValue where
  | null
  | bool (b : Bool)
  | num (x : ℚ)
  | str (s : String)
  | arr (items : List JsValue)
  | obj (props : List (String × JsValue))

/-- JavaScript truthiness of a JSON value (`!v` is its negation). -/
def JsValue.truthy : JsValue → Bool
  | .null => false
  | .bool b => b
  | .num x => decide (x ≠ 0)
  | .str s => decide (s ≠ "")
  | .arr _ => true
  | .obj _ => true

/-- Truthiness of a destructured property: an absent property is `undefined`. -/
def truthy : Option JsValue → Bool
  | none => false
  | some v => v.truthy

/-- A stored game document: the four schema paths of `gameSchema` (lines 21-26)
with the `_id` of the document and the two time stamps of `timestamps: true`. -/
structure GameRecord where
  id : Nat
  title : String
  image : String
  platform : String
  link : String
  createdAt : Nat
  updatedAt : Nat
  deriving DecidableEq, Repr

/-- The record store: its documents in natural order, oldest insertion first. -/
abbrev Store := List GameRecord

/-- The process environment: `process.env.ADMIN_SECRET_KEY` is a string, or
`undefined` when the variable is not set. -/
structure Env where
  adminSecretKey : Option String

/-- A `POST /api/games` request: `req.header('x-admin-secret-key')` (absent header:
`undefined`) and `req.body`, the JSON value `express.json()` parsed, or `undefined`
when the request carried no body for it to parse. -/
structure CreateRequest where
  secretHeader : Option String
  body : Option JsValue

/-- What the store client contributes to one create request. -/
structure Driver where
  /-- The schema cast to `String` of a value that is not a string. -/
  castOther : JsValue → Except String String
  /-- The `_id` given to the new document. -/
  newId : Nat
  /-- The clock value written to `createdAt` and `updatedAt`. -/
  now : Nat
  /-- The message with which the awaited store call rejects, if it does. -/
  fault : Option String

/-- The JSON payload of a response. -/
inductive Payload where
  | text (s : String)
  | message (message : String)
  | failure (message : String) (error : String)
  | created (message : String) (game : GameRecord)
  | games (list : List GameRecord)
  deriving DecidableEq, Repr

/-- An HTTP response: `res.status(n).json(payload)`. -/
structure Response where
  status : Nat
  body : Payload
  deriving DecidableEq, Repr

/-- A call issued to the store during a request. -/
inductive StoreCall where
  | insert (doc : GameRecord)
  | findRecent
  | findByTitle (source : String)
  deriving DecidableEq, Repr

/-- The effect of handling one request: the response, the store afterwards and the
store calls issued, in order. -/
structure Outcome where
  response : Response
  store : Store
  calls : List StoreCall
  deriving DecidableEq, Repr

/-! ## `GET /` -/

/-- The handler of `GET /` (lines 33-35): `res.send` of a fixed text. -/
def rootHandler : Response :=
  ⟨200, .text "API da Kyotto Projects no ar!"⟩

/-! ## `POST /api/games` -/

/-- The schema cast of a path of type `String`: a string is kept as it is. -/
def castString (d : Driver) : JsValue → Except String String
  | .str s => .ok s
  | v => d.castOther v

/-- A path declared `{ type: String, required: true }`: the cast value must be a
non-empty string. -/
def requiredString (d : Driver) (path : String) : Option JsValue → Except String String
  | none => .error ("Path `" ++ path ++ "` is required.")
  | some v =>
    match castString d v with
    | .error e => .error e
    | .ok s => if s = "" then .error ("Path `" ++ path ++ "` is required.") else .ok s

/-- The entry of a path in the message of a validation error, if the path fails. -/
def pathFailure (path : String) : Except String String → List String
  | .error e => [path ++ ": " ++ e]
  | .ok _ => []

/-- The document `new Game({ title, image, platform, link })` as `save()` validates
it (lines 57-58), or the validation error, whose message lists every failing
path. -/
def newGame (d : Driver) (title image platform link : Option JsValue) :
    Except String GameRecord :=
  match requiredString d "title" title, requiredString d "image" image,
      requiredString d "platform" platform, requiredString d "link" link with
  | .ok t, .ok i, .ok p, .ok l => .ok ⟨d.newId, t, i, p, l, d.now, d.now⟩
  | rt, ri, rp, rl =>
    .error ("Game validation failed: " ++
      ", ".intercalate (pathFailure "title" rt ++ pathFailure "image" ri ++
        pathFailure "platform" rp ++ pathFailure "link" rl))

/-- The `TypeError` of the destructuring of line 50, thrown when `req.body` is
`undefined` or `null`. -/
def destructureError : Option JsValue → Option String
  | none => some "Cannot destructure property 'title' of 'req.body' as it is undefined."
  | some .null => some "Cannot destructure property 'title' of 'req.body' as it is null."
  | some _ => none

/-- The property of `req.body` that the destructuring of line 50 reads: a property
of an object, `undefined` on any other value. -/
def bodyProp (body : Option JsValue) (key : String) : Option JsValue :=
  match body with
  | some (.obj props) => props.lookup key
  | _ => none

/-- The handler of `POST /api/games` (lines 41-63). -/
def createHandler (env : Env) (d : Driver) (req : CreateRequest) (store : Store) : Outcome :=
  if req.secretHeader ≠ env.adminSecretKey then
    ⟨⟨401, .message "Acesso não autorizado. Chave inválida."⟩, store, []⟩
  else
    match destructureError req.body with
    | some e => ⟨⟨500, .failure "Erro ao adicionar o jogo." e⟩, store, []⟩
    | none =>
      let title := bodyProp req.body "title"
      let image := bodyProp req.body "image"
      let platform := bodyProp req.body "platform"
      let link := bodyProp req.body "link"
      if !truthy title || !truthy image || !truthy platform || !truthy link then
        ⟨⟨400, .message "Todos os campos são obrigatórios."⟩, store, []⟩
      else
        match newGame d title image platform link with
        | .error e => ⟨⟨500, .failure "Erro ao adicionar o jogo." e⟩, store, []⟩
        | .ok game =>
          match d.fault with
          | some e => ⟨⟨500, .failure "Erro ao adicionar o jogo." e⟩, store, [.insert game]⟩
          | none =>
            ⟨⟨201, .created "Jogo adicionado com sucesso!" game⟩, store ++ [game],
              [.insert game]⟩

/-! ## The pattern engine -/

/-- The engine behind `new RegExp(source, 'i')` and the store's match of a title
against it.  The handler only constructs the pattern and hands it to the store, so
the engine is an input of the model. -/
structure RegExpEngine where
  /-- The message of the `SyntaxError` thrown for this pattern source, if any. -/
  compileError : String → Option String
  /-- Whether the pattern of this source, with flag `i`, matches somewhere in the
  subject. -/
  test : String → String → Bool
  /-- The case table of the engine outside ASCII: the canonical form under which
  flag `i` compares a character of the pattern with a character of the subject. -/
  fold : Char → Char

/-- A pattern of the fragment of the ECMAScript pattern language made of pattern
characters, `.`, the quantifiers `*`, `+`, `?`, alternation and groups. -/
inductive Regex where
  | empty
  | lit (c : Char)
  | dot
  | seq (a b : Regex)
  | alt (a b : Regex)
  | star (a : Regex)
  deriving DecidableEq, Repr

/-- The characters `.` does not match without the flag `s`. -/
def isLineTerminator (c : Char) : Bool :=
  c.toNat = 0x0A || c.toNat = 0x0D || c.toNat = 0x2028 || c.toNat = 0x2029

/-- The canonical form of a character under flag `i`: the lower case of an ASCII
letter, and what the case table says outside ASCII. -/
def caseFold (table : Char → Char) (c : Char) : Char :=
  if c.toNat < 128 then c.toLower else table c

/-- Whether the pattern character `p` matches the subject character `t` under the
flag `i`: their canonical forms are the same. -/
def eqIgnoreCase (table : Char → Char) (p t : Char) : Bool :=
  caseFold table p == caseFold table t

/-- The iteration of a starred matcher, every round of which must consume input. -/
def starLoop (step : List Char → (List Char → Bool) → Bool) :
    Nat → List Char → (List Char → Bool) → Bool
  | 0, s, k => k s
  | n + 1, s, k =>
    step s (fun rest => decide (rest.length < s.length) && starLoop step n rest k) || k s

/-- The matcher of a pattern in continuation style: whether the pattern matches a
beginning of `s` after which the continuation `k` accepts what is left. -/
def Regex.matchK (table : Char → Char) : Regex → List Char → (List Char → Bool) → Bool
  | .empty, s, k => k s
  | .lit c, s, k =>
    match s with
    | [] => false
    | d :: rest => eqIgnoreCase table c d && k rest
  | .dot, s, k =>
    match s with
    | [] => false
    | d :: rest => !isLineTerminator d && k rest
  | .seq a b, s, k => a.matchK table s (fun rest => b.matchK table rest k)
  | .alt a b, s, k => a.matchK table s k || b.matchK table s k
  | .star a, s, k => starLoop (a.matchK table) s.length s k

/-- Whether the pattern matches at some position of the subject.  The subject is
read character by character, the way the store reads a stored title. -/
def Regex.search (table : Char → Char) (r : Regex) (subject : List Char) : Bool :=
  subject.tails.any (fun s => r.matchK table s (fun _ => true))

/-- A group being read: its finished alternatives and the terms of the current
alternative, both most recent first. -/
structure Frame where
  alts : List Regex
  terms : List Regex
  deriving DecidableEq, Repr

/-- What the reader has just consumed, which decides whether a quantifier may
follow. -/
inductive Last where
  | nothing
  | atom
  | quantified
  | lazy
  deriving DecidableEq, Repr

/-- The state of the pattern reader: the open group, the groups around it and the
kind of the last item. -/
structure ParseState where
  cur : Frame
  outer : List Frame
  last : Last
  deriving DecidableEq, Repr

/-- The sequence of the terms of an alternative, given most recent first. -/
def seqOf (terms : List Regex) : Regex :=
  terms.foldl (fun acc t => .seq t acc) .empty

/-- The disjunction of a finished group. -/
def closeFrame (f : Frame) : Regex :=
  f.alts.foldl (fun acc a => .alt a acc) (seqOf f.terms)

/-- A quantified atom: `r*`, `r+` or `r?`. -/
def quantify (c : Char) (r : Regex) : Regex :=
  if c = '*' then .star r else if c = '+' then .seq r (.star r) else .alt r .empty

/-- One character of the pattern source. -/
def parseStep (st : ParseState) (c : Char) : Except String ParseState :=
  if c = '(' then .ok ⟨⟨[], []⟩, st.cur :: st.outer, .nothing⟩
  else if c = ')' then
    match st.outer with
    | [] => .error "Unmatched ')'"
    | f :: rest => .ok ⟨⟨f.alts, closeFrame st.cur :: f.terms⟩, rest, .atom⟩
  else if c = '|' then
    .ok ⟨⟨seqOf st.cur.terms :: st.cur.alts, []⟩, st.outer, .nothing⟩
  else if c = '*' ∨ c = '+' ∨ c = '?' then
    match st.last, st.cur.terms with
    | .atom, t :: ts => .ok ⟨⟨st.cur.alts, quantify c t :: ts⟩, st.outer, .quantified⟩
    | .quantified, _ =>
      if c = '?' then .ok ⟨st.cur, st.outer, .lazy⟩ else .error "Nothing to repeat"
    | _, _ => .error "Nothing to repeat"
  else if c = '.' then
    .ok ⟨⟨st.cur.alts, .dot :: st.cur.terms⟩, st.outer, .atom⟩
  else
    .ok ⟨⟨st.cur.alts, .lit c :: st.cur.terms⟩, st.outer, .atom⟩

/-- The reader run over the rest of the source. -/
def parseFrom : List Char → ParseState → Except String Regex
  | [], st =>
    match st.outer with
    | [] => .ok (closeFrame st.cur)
    | _ :: _ => .error "Unterminated group"
  | c :: cs, st =>
    match parseStep st c with
    | .error e => .error e
    | .ok next => parseFrom cs next

/-- The pattern of a source of the fragment, or the reason it is rejected. -/
def parsePattern (source : String) : Except String Regex :=
  parseFrom source.toList ⟨⟨[], []⟩, [], .nothing⟩

/-- The characters with a meaning of their own in the fragment. -/
def isOperator (c : Char) : Bool :=
  c = '(' || c = ')' || c = '|' || c = '*' || c = '+' || c = '?' || c = '.'

/-- The characters a source of the fragment is written with: every character but
the backslash, the brackets, the braces, the caret and the dollar. -/
def fragmentChar (c : Char) : Bool :=
  !(c = '\\' || c = '[' || c = ']' || c.toNat = 0x7B || c.toNat = 0x7D ||
    c = '^' || c = '$')

/-- Whether a group opens with `?` (a modifier, a look-around or a name). -/
def hasGroupModifier : List Char → Bool
  | [] => false
  | c :: cs => (c = '(' && cs.head? = some '?') || hasGroupModifier cs

/-- Whether a pattern source lies in the fragment.  A source that has both an
operator and a character beyond the basic plane is left out: the pattern reader of
`new RegExp` takes such a character as two code units. -/
def inFragment (source : String) : Bool :=
  source.toList.all fragmentChar && !hasGroupModifier source.toList &&
    (source.toList.all (fun c => decide (c.toNat < 0x10000)) ||
      !source.toList.any isOperator)

/-- The ECMAScript engine on the fragment; a source outside the fragment, and the
case table, are left to the engine `ext`. -/
def ecma (ext : RegExpEngine) : RegExpEngine where
  compileError source :=
    if inFragment source then
      match parsePattern source with
      | .error e => some ("Invalid regular expression: /" ++ source ++ "/i: " ++ e)
      | .ok _ => none
    else ext.compileError source
  test source subject :=
    if inFragment source then
      match parsePattern source with
      | .error _ => false
      | .ok r => r.search ext.fold subject.toList
    else ext.test source subject
  fold := ext.fold

/-- An engine that accepts no pattern and knows no case pair outside ASCII, to
stand for `ext` where it is not consulted. -/
def noEngine : RegExpEngine where
  compileError _ := some "unsupported"
  test _ _ := false
  fold c := c

/-- The case table of the letters of the Latin-1 block: U+00C0 to U+00DE, the
multiplication sign apart, have their lower case 32 places further. -/
def latinTable (c : Char) : Char :=
  if 0xC0 ≤ c.toNat ∧ c.toNat ≤ 0xDE ∧ c.toNat ≠ 0xD7 then Char.ofNat (c.toNat + 32) else c

/-- The engine `noEngine` with the case table of the Latin-1 letters. -/
def latinEngine : RegExpEngine where
  compileError _ := some "unsupported"
  test _ _ := false
  fold := latinTable

/-! ## `GET /api/games/search` -/

/-- A value of `req.query.q` as the query-string reader builds it: a string, or an
array or object for repeated and bracketed parameters. -/
inductive QueryValue where
  | str (s : String)
  | arr (items : List QueryValue)
  | obj (props : List (String × QueryValue))

/-- Truthiness of a query value: only the empty string is falsy. -/
def QueryValue.truthy : QueryValue → Bool
  | .str s => decide (s ≠ "")
  | .arr _ => true
  | .obj _ => true

mutual
/-- The string `new RegExp` makes of its first argument (`ToString`). -/
def QueryValue.toJsString : QueryValue → String
  | .str s => s
  | .arr items => joinItems items
  | .obj _ => "[object Object]"
/-- The elements of an array joined by commas. -/
def joinItems : List QueryValue → String
  | [] => ""
  | v :: vs =>
    match vs with
    | [] => v.toJsString
    | _ :: _ => v.toJsString ++ "," ++ joinItems vs
end

/-- The value of `req.query.q || ''` (line 71). -/
def searchTermOf : Option QueryValue → QueryValue
  | none => .str ""
  | some v => if v.truthy then v else .str ""

/-- The order of `sort({ createdAt: -1 })`: `a` may come before `b`. -/
def newerFirst (a b : GameRecord) : Prop :=
  b.createdAt ≤ a.createdAt

instance : DecidableRel newerFirst :=
  fun a b => inferInstanceAs (Decidable (b.createdAt ≤ a.createdAt))

/-- The query `Game.find().sort({ createdAt: -1 }).limit(6)` (line 75).  Records
of equal `createdAt` are left in the order of the store. -/
def findRecent (store : Store) : List GameRecord :=
  (store.insertionSort newerFirst).take 6

/-- The query `Game.find({ title: searchRegex }).limit(20)` (line 81): no sort is
asked for, the matching records come in the order of the store. -/
def findByTitle (E : RegExpEngine) (source : String) (store : Store) : List GameRecord :=
  (store.filter (fun g => E.test source g.title)).take 20

/-- The handler of `GET /api/games/search` (lines 69-87); `fault` is the message
with which the awaited store call rejects, if it does. -/
def searchHandler (E : RegExpEngine) (fault : Option String) (q : Option QueryValue)
    (store : Store) : Outcome :=
  let searchTerm := searchTermOf q
  if !searchTerm.truthy then
    match fault with
    | some e => ⟨⟨500, .failure "Erro ao buscar jogos." e⟩, store, [.findRecent]⟩
    | none => ⟨⟨200, .games (findRecent store)⟩, store, [.findRecent]⟩
  else
    match E.compileError searchTerm.toJsString with
    | some e => ⟨⟨500, .failure "Erro ao buscar jogos." e⟩, store, []⟩
    | none =>
      match fault with
      | some e =>
        ⟨⟨500, .failure "Erro ao buscar jogos." e⟩, store,
          [.findByTitle searchTerm.toJsString]⟩
      | none =>
        ⟨⟨200, .games (findByTitle E searchTerm.toJsString store)⟩, store,
          [.findByTitle searchTerm.toJsString]⟩

instance : IsTotal GameRecord newerFirst :=
  ⟨fun a b => Nat.le_total b.createdAt a.createdAt⟩

instance : IsTrans GameRecord newerFirst :=
  ⟨fun _ _ _ hab hbc => Nat.le_trans hbc hab⟩

/-! ## The words of the specification -/

/-- The specification's missing field: a field that is absent, or present with an
empty (falsy) value: `null`, `false`, zero or the empty string. -/
def fieldMissing : Option JsValue → Prop
  | none => True
  | some .null => True
  | some (.bool b) => b = false
  | some (.num x) => x = 0
  | some (.str s) => s = ""
  | some (.arr _) => False
  | some (.obj _) => False

/-- The specification's match: the title contains the query text as a substring,
ignoring the case of letters. -/
def containsIgnoreCase (title q : String) : Prop :=
  q.toList.map Char.toLower <:+: title.toList.map Char.toLower

instance (title q : String) : Decidable (containsIgnoreCase title q) :=
  inferInstanceAs (Decidable (_ <:+: _))

/-- The specification's letter case: a capital ASCII letter stands for its small
letter, any other ASCII character for itself, and a character outside ASCII for
what the case table gives. -/
def lowerCase (table : Char → Char) (c : Char) : Char :=
  if 65 ≤ c.toNat ∧ c.toNat ≤ 90 then Char.ofNat (c.toNat + 32)
  else if c.toNat < 128 then c
  else table c

/-- The specification's match with the letter case of a given case table: the title
contains the query text as a substring, ignoring the case of letters. -/
def containsFolded (table : Char → Char) (title q : String) : Prop :=
  q.toList.map (lowerCase table) <:+: title.toList.map (lowerCase table)

instance (table : Char → Char) (title q : String) :
    Decidable (containsFolded table title q) :=
  inferInstanceAs (Decidable (_ <:+: _))

/-- The specification's query in any letter case: the same text as the title, the
case of letters apart. -/
def sameTextAnyCase (table : Char → Char) (q title : String) : Prop :=
  q.toList.map (lowerCase table) = title.toList.map (lowerCase table)

instance (table : Char → Char) (q title : String) :
    Decidable (sameTextAnyCase table q title) :=
  inferInstanceAs (Decidable (_ = _))

/-- The code points of the characters with a meaning in a pattern: the backslash,
`^ $ . * + ? ( ) [ ] |` and the two braces. -/
def patternChars : List Nat :=
  [0x5C, 0x5E, 0x24, 0x2E, 0x2A, 0x2B, 0x3F, 0x28, 0x29, 0x5B, 0x5D, 0x7C, 0x7B, 0x7D]

/-- A character that stands for itself in a pattern: any character but the pattern
characters. -/
def plainChar (c : Char) : Bool :=
  !patternChars.contains c.toNat

/-- A text made of characters that stand for themselves in a pattern. -/
def isPlainText (q : String) : Bool :=
  q.toList.all plainChar

/-- The pattern that reads the given characters one after the other. -/
def litSeq (cs : List Char) : Regex :=
  (cs.map Regex.lit).foldr Regex.seq Regex.empty

/-! ## Sample data -/

/-- A body with the four fields of the game "Chess". -/
def chessBody : Option JsValue :=
  some (.obj [("title", .str "Chess"), ("image", .str "img.png"), ("platform", .str "PC"),
    ("link", .str "http://x")])

/-- A store client that answers, for a document with the given id and time. -/
def okDriver (id now : Nat) : Driver :=
  ⟨fun _ => .error "Cast to string failed", id, now, none⟩

/-- The record of the game "Chess" with the given id and time. -/
def chessRecord (id now : Nat) : GameRecord :=
  ⟨id, "Chess", "img.png", "PC", "http://x", now, now⟩

/-- A store of `n` records that all carry the given title, with ids and creation
times 0 to n-1. -/
def sameTitleStore (title : String) (n : Nat) : Store :=
  (List.range n).map (fun k => ⟨k, title, "img.png", "PC", "http://x", k, k⟩)

/-- The record of a game with the given title, id and time. -/
def titledRecord (title : String) (id now : Nat) : GameRecord :=
  ⟨id, title, "img.png", "PC", "http://x", now, now⟩

/-- A body with the four fields of a game of the given title. -/
def titledBody (title : String) : Option JsValue :=
  some (.obj [("title", .str title), ("image", .str "img.png"), ("platform", .str "PC"),
    ("link", .str "http://x")])

/-! ## The create operation -/

/-- C1: a create request whose presented secret differs from the configured one is
answered 401 whatever its body, issues no store call and leaves the store as it
was, so that any later search answers as it would have before. -/
theorem create_wrong_secret_unauthorized (env : Env) (d : Driver) (req : CreateRequest)
    (store : Store) (h : req.secretHeader ≠ env.adminSecretKey) :
    (createHandler env d req store).response =
        ⟨401, .message "Acesso não autorizado. Chave inválida."⟩ ∧
      (createHandler env d req store).calls = [] ∧
      (createHandler env d req store).store = store ∧
      ∀ (E : RegExpEngine) (fault : Option String) (q : Option QueryValue),
        searchHandler E fault q (createHandler env d req store).store =
          searchHandler E fault q store := by
  have hout : createHandler env d req store =
      ⟨⟨401, .message "Acesso não autorizado. Chave inválida."⟩, store, []⟩ := by
    unfold createHandler
    rw [if_pos h]
  rw [hout]
  exact ⟨rfl, rfl, rfl, fun _ _ _ => rfl⟩

/-- Witness of C1: the secret "wrong" against the configured "s3cret", with a full
valid body. -/
theorem create_wrong_secret_unauthorized_witness :
    (createHandler ⟨some "s3cret"⟩ (okDriver 7 100) ⟨some "wrong", chessBody⟩ []).response =
        ⟨401, .message "Acesso não autorizado. Chave inválida."⟩ ∧
      (createHandler ⟨some "s3cret"⟩ (okDriver 7 100) ⟨some "wrong", chessBody⟩ []).calls = [] ∧
      (createHandler ⟨some "s3cret"⟩ (okDriver 7 100) ⟨some "wrong", chessBody⟩ []).store = [] ∧
      ∀ (E : RegExpEngine) (fault : Option String) (q : Option QueryValue),
        searchHandler E fault q
            (createHandler ⟨some "s3cret"⟩ (okDriver 7 100) ⟨some "wrong", chessBody⟩ []).store =
          searchHandler E fault q [] :=
  create_wrong_secret_unauthorized ⟨some "s3cret"⟩ (okDriver 7 100) ⟨some "wrong", chessBody⟩ []
    (by decide)

/-- C2, the code at the failing input: with `ADMIN_SECRET_KEY` not set, a request
that carries no `x-admin-secret-key` header passes the comparison of line 45
(`undefined !== undefined` is false), is answered 201 and its record is stored. -/
theorem create_no_header_unset_key_accepted :
    createHandler ⟨none⟩ (okDriver 7 100) ⟨none, chessBody⟩ [] =
      ⟨⟨201, .created "Jogo adicionado com sucesso!" (chessRecord 7 100)⟩,
        [chessRecord 7 100], [.insert (chessRecord 7 100)]⟩ := by
  decide

/-- A field is falsy to the handler exactly when it is missing in the sense of
the specification. -/
theorem truthy_eq_false_iff (v : Option JsValue) : truthy v = false ↔ fieldMissing v := by
  cases v with
  | none => simp [truthy, fieldMissing]
  | some w => cases w <;> simp [truthy, JsValue.truthy, fieldMissing]

/-- With the correct secret, a body that is a JSON value other than `null` and in
which one of the four fields is missing is answered 400 with the one fixed message,
issues no store call and leaves the store as it was. -/
theorem create_missing_field_bad_request (env : Env) (d : Driver) (body : JsValue)
    (store : Store) (hbody : body ≠ .null)
    (h : fieldMissing (bodyProp (some body) "title") ∨
      fieldMissing (bodyProp (some body) "image") ∨
      fieldMissing (bodyProp (some body) "platform") ∨
      fieldMissing (bodyProp (some body) "link")) :
    createHandler env d ⟨env.adminSecretKey, some body⟩ store =
      ⟨⟨400, .message "Todos os campos são obrigatórios."⟩, store, []⟩ := by
  have hcond : (!truthy (bodyProp (some body) "title") ||
      !truthy (bodyProp (some body) "image") || !truthy (bodyProp (some body) "platform") ||
      !truthy (bodyProp (some body) "link")) = true := by
    rcases h with h | h | h | h <;> simp [(truthy_eq_false_iff _).mpr h]
  have hd : destructureError (some body) = none := by
    cases body <;> first | rfl | exact absurd rfl hbody
  unfold createHandler
  simp only [ne_eq, not_true_eq_false, if_false, hd]
  rw [if_pos hcond]

/-- The 400 answer at the body of "Chess" with an empty `link`. -/
theorem create_missing_field_bad_request_sample :
    createHandler ⟨some "s3cret"⟩ (okDriver 7 100)
        ⟨some "s3cret", some (.obj [("title", .str "Chess"), ("image", .str "img.png"),
          ("platform", .str "PC"), ("link", .str "")])⟩ [chessRecord 1 50] =
      ⟨⟨400, .message "Todos os campos são obrigatórios."⟩, [chessRecord 1 50], []⟩ := by
  decide

/-- C3, the code at the failing input: with the correct secret, a request whose
`req.body` is `undefined` (no body was parsed), so that all four fields are
missing, is answered 500 by the `catch` of line 60, not 400; the store is left as
it was. -/
theorem create_without_body_internal_error :
    fieldMissing (bodyProp none "title") ∧
      createHandler ⟨some "s3cret"⟩ (okDriver 7 100) ⟨some "s3cret", none⟩ [chessRecord 1 50] =
        ⟨⟨500, .failure "Erro ao adicionar o jogo."
          "Cannot destructure property 'title' of 'req.body' as it is undefined."⟩,
          [chessRecord 1 50], []⟩ := by
  exact ⟨trivial, by decide⟩

/-- A body of which a property can be read is one the destructuring accepts. -/
theorem bodyProp_some_destructure (body : Option JsValue) (key : String) (v : JsValue)
    (h : bodyProp body key = some v) : destructureError body = none := by
  cases body with
  | none => simp [bodyProp] at h
  | some b => cases b <;> first | rfl | simp [bodyProp] at h

/-- A required path holding a non-empty string validates to that string. -/
theorem requiredString_str (d : Driver) (path s : String) (hs : s ≠ "") :
    requiredString d path (some (.str s)) = .ok s := by
  simp [requiredString, castString, hs]

/-- The create handler on a body whose four fields are non-empty strings, with the
correct secret and a store that answers. -/
theorem createHandler_valid (env : Env) (d : Driver) (body : Option JsValue)
    (store : Store) (t i p l : String) (hfault : d.fault = none)
    (ht : bodyProp body "title" = some (.str t)) (hi : bodyProp body "image" = some (.str i))
    (hp : bodyProp body "platform" = some (.str p)) (hl : bodyProp body "link" = some (.str l))
    (hne : t ≠ "" ∧ i ≠ "" ∧ p ≠ "" ∧ l ≠ "") :
    createHandler env d ⟨env.adminSecretKey, body⟩ store =
      ⟨⟨201, .created "Jogo adicionado com sucesso!" ⟨d.newId, t, i, p, l, d.now, d.now⟩⟩,
        store ++ [⟨d.newId, t, i, p, l, d.now, d.now⟩],
        [.insert ⟨d.newId, t, i, p, l, d.now, d.now⟩]⟩ := by
  obtain ⟨h1, h2, h3, h4⟩ := hne
  have hd : destructureError body = none := bodyProp_some_destructure body "title" _ ht
  unfold createHandler
  simp only [ne_eq, not_true_eq_false, if_false, hd, ht, hi, hp, hl]
  simp [truthy, JsValue.truthy, newGame, requiredString_str, h1, h2, h3, h4, hfault]

/-- C4: with the correct secret, four non-empty string fields and a store whose
save succeeds, the request is answered 201 with a game carrying exactly the
submitted fields, and the store afterwards is the store before followed by that
one record; the same body submitted again adds a second record. -/
theorem create_valid_persists (env : Env) (d : Driver) (body : Option JsValue)
    (store : Store) (t i p l : String) (hfault : d.fault = none)
    (ht : bodyProp body "title" = some (.str t)) (hi : bodyProp body "image" = some (.str i))
    (hp : bodyProp body "platform" = some (.str p)) (hl : bodyProp body "link" = some (.str l))
    (hne : t ≠ "" ∧ i ≠ "" ∧ p ≠ "" ∧ l ≠ "") :
    createHandler env d ⟨env.adminSecretKey, body⟩ store =
        ⟨⟨201, .created "Jogo adicionado com sucesso!" ⟨d.newId, t, i, p, l, d.now, d.now⟩⟩,
          store ++ [⟨d.newId, t, i, p, l, d.now, d.now⟩],
          [.insert ⟨d.newId, t, i, p, l, d.now, d.now⟩]⟩ ∧
      ∀ d2 : Driver, d2.fault = none →
        (createHandler env d2 ⟨env.adminSecretKey, body⟩
            (createHandler env d ⟨env.adminSecretKey, body⟩ store).store).store =
          store ++ [⟨d.newId, t, i, p, l, d.now, d.now⟩,
            ⟨d2.newId, t, i, p, l, d2.now, d2.now⟩] := by
  have h1 := createHandler_valid env d body store t i p l hfault ht hi hp hl hne
  refine ⟨h1, fun d2 h2 => ?_⟩
  rw [h1]
  rw [createHandler_valid env d2 body _ t i p l h2 ht hi hp hl hne]
  simp

/-- Witness of C4: the game "Chess" created in an empty store. -/
theorem create_valid_persists_witness :
    createHandler ⟨some "s3cret"⟩ (okDriver 7 100) ⟨some "s3cret", chessBody⟩ [] =
        ⟨⟨201, .created "Jogo adicionado com sucesso!" (chessRecord 7 100)⟩,
          [] ++ [chessRecord 7 100], [.insert (chessRecord 7 100)]⟩ ∧
      ∀ d2 : Driver, d2.fault = none →
        (createHandler ⟨some "s3cret"⟩ d2 ⟨some "s3cret", chessBody⟩
            (createHandler ⟨some "s3cret"⟩ (okDriver 7 100) ⟨some "s3cret", chessBody⟩
              []).store).store =
          [] ++ [chessRecord 7 100, ⟨d2.newId, "Chess", "img.png", "PC", "http://x", d2.now,
            d2.now⟩] :=
  create_valid_persists ⟨some "s3cret"⟩ (okDriver 7 100) chessBody [] "Chess" "img.png" "PC"
    "http://x" rfl rfl rfl rfl rfl (by decide)

/-! ## The search operation -/

/-- The six-newest listing is sorted newest first. -/
theorem findRecent_sorted (store : Store) :
    (findRecent store).Pairwise (fun a b => b.createdAt ≤ a.createdAt) :=
  (List.sorted_insertionSort newerFirst store).sublist (List.take_sublist 6 _)

/-- Every stored record left out of the six-newest listing is no newer than any
record listed. -/
theorem findRecent_newest (store : Store) (r : GameRecord) (hr : r ∈ store)
    (hout : r ∉ findRecent store) : ∀ x ∈ findRecent store, r.createdAt ≤ x.createdAt := by
  intro x hx
  have hsorted : (store.insertionSort newerFirst).Pairwise newerFirst :=
    List.sorted_insertionSort newerFirst store
  rw [← List.take_append_drop 6 (store.insertionSort newerFirst), List.pairwise_append]
    at hsorted
  have hmem : r ∈ store.insertionSort newerFirst :=
    (List.perm_insertionSort newerFirst store).mem_iff.mpr hr
  rw [← List.take_append_drop 6 (store.insertionSort newerFirst), List.mem_append] at hmem
  rcases hmem with h | h
  · exact absurd h hout
  · exact hsorted.2.2 x hx r h

/-- C5: a search whose `q` is absent or the empty string, on a store that answers,
is answered 200 with a list of min(6, n) of the n stored records, sorted by
`createdAt` descending, such that every stored record left out was created no later
than every record listed. -/
theorem search_no_query_recent (E : RegExpEngine) (store : Store) :
    searchHandler E none none store = ⟨⟨200, .games (findRecent store)⟩, store, [.findRecent]⟩ ∧
      searchHandler E none (some (.str "")) store =
        ⟨⟨200, .games (findRecent store)⟩, store, [.findRecent]⟩ ∧
      (findRecent store).length = min 6 store.length ∧
      (findRecent store).Pairwise (fun a b => b.createdAt ≤ a.createdAt) ∧
      (findRecent store).Subperm store ∧
      ∀ r ∈ store, r ∉ findRecent store → ∀ x ∈ findRecent store, r.createdAt ≤ x.createdAt := by
  refine ⟨rfl, rfl, ?_, findRecent_sorted store, ?_, findRecent_newest store⟩
  · simp [findRecent, List.length_take, List.length_insertionSort]
  · exact (List.take_sublist 6 _).subperm.trans (List.perm_insertionSort newerFirst store).subperm

/-- The text search on a store that answers, for a pattern the engine accepts. -/
theorem searchHandler_text (E : RegExpEngine) (q : QueryValue) (store : Store)
    (hq : q.truthy = true) (hc : E.compileError q.toJsString = none) :
    searchHandler E none (some q) store =
      ⟨⟨200, .games (findByTitle E q.toJsString store)⟩, store,
        [.findByTitle q.toJsString]⟩ := by
  simp [searchHandler, searchTermOf, hq, hc]

/-- Any list a text search answers with is the capped list of the matching
records. -/
theorem searchHandler_text_games (E : RegExpEngine) (fault : Option String) (q : QueryValue)
    (store : Store) (hq : q.truthy = true) (xs : List GameRecord)
    (h : (searchHandler E fault (some q) store).response.body = .games xs) :
    xs = findByTitle E q.toJsString store := by
  unfold searchHandler at h
  simp only [searchTermOf, hq, if_true, Bool.not_true, Bool.false_eq_true, if_false] at h
  cases hc : E.compileError q.toJsString with
  | some e => rw [hc] at h; simp at h
  | none =>
    rw [hc] at h
    cases fault with
    | some e => simp at h
    | none => simpa using h.symm

/-- C7: for a non-empty query string, any array the search returns is exactly the
first min(20, m) of the m stored records whose title matches the pattern whose
source is that string, in the order of the store, hence of at most 20 records; the
search does return that array whenever the pattern is accepted and the store
answers, and the one store call it issues carries the string as pattern source. -/
theorem search_text_query_capped (E : RegExpEngine) (fault : Option String) (q : String)
    (store : Store) (hq : q ≠ "") :
    (∀ xs : List GameRecord,
        (searchHandler E fault (some (.str q)) store).response.body = .games xs →
          xs = (store.filter (fun g => E.test q g.title)).take
              (min 20 (store.filter (fun g => E.test q g.title)).length) ∧
            xs.length = min 20 (store.filter (fun g => E.test q g.title)).length ∧
            xs.length ≤ 20 ∧ xs.Sublist store) ∧
      (E.compileError q = none →
        searchHandler E none (some (.str q)) store =
          ⟨⟨200, .games ((store.filter (fun g => E.test q g.title)).take 20)⟩, store,
            [.findByTitle q]⟩) := by
  have htruthy : (QueryValue.str q).truthy = true := by simp [QueryValue.truthy, hq]
  have hsrc : (QueryValue.str q).toJsString = q := by simp [QueryValue.toJsString]
  constructor
  · intro xs h
    have hxs := searchHandler_text_games E fault (.str q) store htruthy xs h
    rw [hsrc] at hxs
    subst hxs
    refine ⟨?_, ?_, ?_, ?_⟩
    · simp only [findByTitle]
      rcases Nat.le_total 20 (store.filter (fun g => E.test q g.title)).length
        with hle | hle
      · rw [Nat.min_eq_left hle]
      · rw [Nat.min_eq_right hle, List.take_of_length_le hle, List.take_of_length_le (le_refl _)]
    · simp [findByTitle, List.length_take]
    · simp [findByTitle, List.length_take]
    · exact (List.take_sublist _ _).trans (List.filter_sublist _)
  · intro hc
    rw [← hsrc] at hc
    rw [searchHandler_text E (.str q) store htruthy hc, hsrc]
    rfl

/-- Witness of C7: the query "mario" against 21 records titled "Super Mario". -/
theorem search_text_query_capped_witness :
    (∀ xs : List GameRecord,
        (searchHandler (ecma noEngine) none (some (.str "mario"))
            (sameTitleStore "Super Mario" 21)).response.body = .games xs →
          xs = ((sameTitleStore "Super Mario" 21).filter
                (fun g => (ecma noEngine).test "mario" g.title)).take
              (min 20 ((sameTitleStore "Super Mario" 21).filter
                (fun g => (ecma noEngine).test "mario" g.title)).length) ∧
            xs.length = min 20 ((sameTitleStore "Super Mario" 21).filter
                (fun g => (ecma noEngine).test "mario" g.title)).length ∧
            xs.length ≤ 20 ∧ xs.Sublist (sameTitleStore "Super Mario" 21)) ∧
      ((ecma noEngine).compileError "mario" = none →
        searchHandler (ecma noEngine) none (some (.str "mario"))
            (sameTitleStore "Super Mario" 21) =
          ⟨⟨200, .games (((sameTitleStore "Super Mario" 21).filter
            (fun g => (ecma noEngine).test "mario" g.title)).take 20)⟩,
            sameTitleStore "Super Mario" 21, [.findByTitle "mario"]⟩) :=
  search_text_query_capped (ecma noEngine) none "mario" (sameTitleStore "Super Mario" 21)
    (by decide)

/-- The pattern source `new RegExp` makes of a repeated or bracketed parameter:
the elements of an array joined by commas, and a fixed text for an object. -/
theorem toJsString_samples :
    (QueryValue.str "a+b").toJsString = "a+b" ∧
      (QueryValue.arr [.str "a", .str "b"]).toJsString = "a,b" ∧
      (QueryValue.arr [.arr [.str "a", .str "b"], .str "c"]).toJsString = "a,b,c" ∧
      (QueryValue.arr []).toJsString = "" ∧
      (QueryValue.obj [("a", .str "b")]).toJsString = "[object Object]" ∧
      (searchHandler (ecma noEngine) none (some (.arr [.str "che", .str "ss"]))
          [chessRecord 1 50]).calls = [.findByTitle "che,ss"] := by
  refine ⟨by decide, by decide, by decide, by decide, by decide, by decide⟩

/-! ## The engine on plain text -/

/-- Texts with and without pattern characters. -/
theorem isPlainText_samples :
    isPlainText "Super Mario" = true ∧ isPlainText "Pokémon" = true ∧
      isPlainText "Zelda: Ocarina of Time, 3D!" = true ∧ isPlainText "C++" = false ∧
      isPlainText "Super Mario Bros." = false ∧ isPlainText "(" = false := by
  decide

/-- The canonical form the engine compares by is the letter case of the
specification. -/
theorem caseFold_eq_lowerCase (table : Char → Char) : caseFold table = lowerCase table := by
  funext c
  unfold caseFold lowerCase
  by_cases hcap : 65 ≤ c.toNat ∧ c.toNat ≤ 90
  · have hlt : c.toNat < 128 := by omega
    simp only [hlt, hcap, if_true, and_self, Char.toLower]
  · simp only [hcap, if_false, Char.toLower]

/-- A plain character is none of the operators of the fragment. -/
theorem plainChar_not_operator (c : Char) (h : plainChar c = true) :
    c ≠ '(' ∧ c ≠ ')' ∧ c ≠ '|' ∧ c ≠ '*' ∧ c ≠ '+' ∧ c ≠ '?' ∧ c ≠ '.' := by
  refine ⟨?_, ?_, ?_, ?_, ?_, ?_, ?_⟩ <;>
    · rintro rfl
      revert h
      decide

/-- A plain character is one a source of the fragment may be written with. -/
theorem plainChar_fragmentChar (c : Char) (h : plainChar c = true) : fragmentChar c = true := by
  have hmem : ∀ n ∈ patternChars, c.toNat ≠ n := by
    intro n hn heq
    rw [plainChar, Bool.not_eq_true', List.contains_eq_any_beq, List.any_eq_false] at h
    exact h n hn (by simpa using heq)
  have h1 : c ≠ '\\' := by rintro rfl; revert h; decide
  have h2 : c ≠ '[' := by rintro rfl; revert h; decide
  have h3 : c ≠ ']' := by rintro rfl; revert h; decide
  have h4 : c ≠ '^' := by rintro rfl; revert h; decide
  have h5 : c ≠ '$' := by rintro rfl; revert h; decide
  have h6 : c.toNat ≠ 0x7B := hmem 0x7B (by decide)
  have h7 : c.toNat ≠ 0x7D := hmem 0x7D (by decide)
  simp [fragmentChar, h1, h2, h3, h4, h5, h6, h7]

/-- The reader takes a plain character as a literal term. -/
theorem parseStep_plain (st : ParseState) (c : Char) (h : plainChar c = true) :
    parseStep st c = .ok ⟨⟨st.cur.alts, .lit c :: st.cur.terms⟩, st.outer, .atom⟩ := by
  obtain ⟨h1, h2, h3, h4, h5, h6, h7⟩ := plainChar_not_operator c h
  simp [parseStep, h1, h2, h3, h4, h5, h6, h7]

/-- The reader run over plain text, outside any group, piles up its characters. -/
theorem parseFrom_plain (cs : List Char) (h : cs.all plainChar = true) :
    ∀ (alts terms : List Regex) (last : Last),
      parseFrom cs ⟨⟨alts, terms⟩, [], last⟩ =
        .ok (closeFrame ⟨alts, (cs.map Regex.lit).reverse ++ terms⟩) := by
  induction cs with
  | nil => intro alts terms last; rfl
  | cons c cs ih =>
    intro alts terms last
    rw [List.all_cons, Bool.and_eq_true] at h
    rw [parseFrom, parseStep_plain _ c h.1]
    simp only
    rw [ih h.2]
    simp

/-- The terms of plain text, put in sequence. -/
theorem seqOf_reverse_lit (cs : List Char) :
    seqOf (cs.map Regex.lit).reverse = litSeq cs := by
  simp [seqOf, litSeq, List.foldl_reverse]

/-- The pattern of a plain source reads its characters one after the other. -/
theorem parsePattern_plain (q : String) (h : isPlainText q = true) :
    parsePattern q = .ok (litSeq q.toList) := by
  unfold parsePattern
  rw [parseFrom_plain q.toList h]
  simp [closeFrame, seqOf_reverse_lit]

/-- Plain text opens no group. -/
theorem hasGroupModifier_plain (cs : List Char) (h : cs.all plainChar = true) :
    hasGroupModifier cs = false := by
  induction cs with
  | nil => rfl
  | cons c cs ih =>
    rw [List.all_cons, Bool.and_eq_true] at h
    have hc := (plainChar_not_operator c h.1).1
    simp [hasGroupModifier, hc, ih h.2]

/-- A plain source lies in the fragment. -/
theorem inFragment_plain (q : String) (h : isPlainText q = true) : inFragment q = true := by
  have hall : q.toList.all fragmentChar = true := by
    rw [List.all_eq_true]
    intro c hc
    exact plainChar_fragmentChar c (List.all_eq_true.mp h c hc)
  have hnone : q.toList.any isOperator = false := by
    rw [List.any_eq_false]
    intro c hc
    obtain ⟨h1, h2, h3, h4, h5, h6, h7⟩ :=
      plainChar_not_operator c (List.all_eq_true.mp h c hc)
    simp [isOperator, h1, h2, h3, h4, h5, h6, h7]
  rw [inFragment, hall, hasGroupModifier_plain q.toList h, hnone]
  simp

/-- A sequence of literals matches a beginning of the subject exactly when its
characters begin the subject, letter case apart. -/
theorem matchK_litSeq (table : Char → Char) (cs : List Char) :
    ∀ s : List Char, (litSeq cs).matchK table s (fun _ => true) = true ↔
      cs.map (caseFold table) <+: s.map (caseFold table) := by
  induction cs with
  | nil => intro s; simp [litSeq, Regex.matchK]
  | cons c cs ih =>
    intro s
    have hseq : litSeq (c :: cs) = .seq (.lit c) (litSeq cs) := rfl
    rw [hseq]
    cases s with
    | nil => simp [Regex.matchK]
    | cons d rest =>
      simp only [Regex.matchK, Bool.and_eq_true, List.map_cons, List.cons_prefix_cons]
      rw [ih rest]
      simp [eqIgnoreCase]

/-- A sequence of literals matches somewhere in the subject exactly when its
characters occur in the subject, letter case apart. -/
theorem search_litSeq (table : Char → Char) (cs s : List Char) :
    (litSeq cs).search table s = true ↔
      cs.map (caseFold table) <:+: s.map (caseFold table) := by
  unfold Regex.search
  rw [List.any_eq_true]
  constructor
  · rintro ⟨t, ht, hm⟩
    rw [List.mem_tails] at ht
    exact List.infix_iff_prefix_suffix.mpr
      ⟨t.map (caseFold table), (matchK_litSeq table cs t).mp hm, ht.map (caseFold table)⟩
  · intro h
    obtain ⟨t, hpre, hsuf⟩ := List.infix_iff_prefix_suffix.mp h
    rw [List.suffix_iff_eq_drop, ← List.map_drop] at hsuf
    refine ⟨s.drop ((s.map (caseFold table)).length - t.length), ?_, ?_⟩
    · rw [List.mem_tails]
      exact List.drop_suffix _ _
    · rw [matchK_litSeq, ← hsuf]
      exact hpre

/-- On a plain source the engine throws nothing and tests for the text as a
substring, letter case apart. -/
theorem ecma_plain (ext : RegExpEngine) (q : String) (h : isPlainText q = true) :
    (ecma ext).compileError q = none ∧
      ∀ title : String, (ecma ext).test q title = decide (containsFolded ext.fold title q) := by
  constructor
  · simp [ecma, inFragment_plain q h, parsePattern_plain q h]
  · intro title
    simp only [ecma, inFragment_plain q h, parsePattern_plain q h, if_true]
    rw [Bool.eq_iff_iff, search_litSeq, decide_eq_true_iff, caseFold_eq_lowerCase]
    rfl

/-- With no case pair outside ASCII, the match of the specification is the match
up to the case of the ASCII letters. -/
theorem containsFolded_noEngine (title q : String) :
    containsFolded noEngine.fold title q ↔ containsIgnoreCase title q := by
  have hfold : lowerCase noEngine.fold = Char.toLower := by
    rw [← caseFold_eq_lowerCase]
    funext c
    unfold caseFold
    split
    · rfl
    · rename_i hc
      have h1 : ¬ (c.toNat ≥ 65 ∧ c.toNat ≤ 90) := by omega
      simp only [noEngine, Char.toLower]
      rw [if_neg h1]
  unfold containsFolded containsIgnoreCase
  rw [hfold]

/-! ## Text search against the words of the specification -/

/-- A record whose title the pattern matches, with fewer than 20 matching records
before it in the store, is among the records the text query returns. -/
theorem findByTitle_mem (E : RegExpEngine) (source : String) (pre post : Store)
    (r : GameRecord) (hr : E.test source r.title = true)
    (hroom : (pre.filter (fun g => E.test source g.title)).length < 20) :
    r ∈ findByTitle E source (pre ++ r :: post) := by
  have hcons : (r :: post).filter (fun g => E.test source g.title) =
      r :: post.filter (fun g => E.test source g.title) := by
    simp [List.filter_cons, hr]
  unfold findByTitle
  rw [List.filter_append, hcons, List.take_append_eq_append_take, List.mem_append]
  right
  obtain ⟨k, hk⟩ : ∃ k, 20 - (pre.filter (fun g => E.test source g.title)).length = k + 1 :=
    ⟨19 - (pre.filter (fun g => E.test source g.title)).length, by omega⟩
  rw [hk, List.take_succ_cons]
  exact List.mem_cons_self _ _

/-- The text search with a plain query on a store that answers: the first 20 of the
records whose title contains the query, letter case apart. -/
theorem searchHandler_plain (ext : RegExpEngine) (store : Store) (q : String) (hq : q ≠ "")
    (hplain : isPlainText q = true) :
    searchHandler (ecma ext) none (some (.str q)) store =
      ⟨⟨200, .games ((store.filter
          (fun g => decide (containsFolded ext.fold g.title q))).take 20)⟩,
        store, [.findByTitle q]⟩ := by
  have htruthy : (QueryValue.str q).truthy = true := by simp [QueryValue.truthy, hq]
  obtain ⟨hc, ht⟩ := ecma_plain ext q hplain
  rw [searchHandler_text (ecma ext) (.str q) store htruthy hc]
  simp only [QueryValue.toJsString, findByTitle, ht]

/-- C6, counterexample: in a store of 21 records titled "Super Mario" the query
"mario" is answered 200 with the first 20 of them, so the 21st record, whose title
contains the query, is not in the array. -/
theorem search_match_beyond_cap_missing :
    (⟨20, "Super Mario", "img.png", "PC", "http://x", 20, 20⟩ : GameRecord) ∈
        sameTitleStore "Super Mario" 21 ∧
      containsIgnoreCase "Super Mario" "mario" ∧
      (searchHandler (ecma noEngine) none (some (.str "mario"))
          (sameTitleStore "Super Mario" 21)).response =
        ⟨200, .games (sameTitleStore "Super Mario" 20)⟩ ∧
      (⟨20, "Super Mario", "img.png", "PC", "http://x", 20, 20⟩ : GameRecord) ∉
        sameTitleStore "Super Mario" 20 := by
  refine ⟨by decide, by decide, ?_, by decide⟩
  rw [searchHandler_plain noEngine _ "mario" (by decide) (by decide)]
  decide

/-- C6, amended: for a non-empty query and a stored record whose title contains the
query letter case apart, on a store that answers: when the query has no pattern
character the search is answered 200 with the first 20, in store order, of the
records whose title contains the query, and the record is in the array provided
fewer than 20 of the records before it in the store match; and for any query, with
any engine, the search is answered 200 with an array containing the record
whenever the pattern is accepted and matches the title of the record, and fewer
than 20 of the records before it match the pattern. -/
theorem search_query_finds_within_cap (ext : RegExpEngine) (pre post : Store) (r : GameRecord)
    (q : String) (hq : q ≠ "") (hmatch : containsFolded ext.fold r.title q) :
    (isPlainText q = true →
        (searchHandler (ecma ext) none (some (.str q)) (pre ++ r :: post)).response =
            ⟨200, .games (((pre ++ r :: post).filter
              (fun g => decide (containsFolded ext.fold g.title q))).take 20)⟩ ∧
          ((pre.filter (fun g => decide (containsFolded ext.fold g.title q))).length < 20 →
            r ∈ ((pre ++ r :: post).filter
              (fun g => decide (containsFolded ext.fold g.title q))).take 20)) ∧
      ∀ E : RegExpEngine, E.compileError q = none → E.test q r.title = true →
        (pre.filter (fun g => E.test q g.title)).length < 20 →
        ∃ xs : List GameRecord,
          (searchHandler E none (some (.str q)) (pre ++ r :: post)).response =
            ⟨200, .games xs⟩ ∧ r ∈ xs := by
  have htruthy : (QueryValue.str q).truthy = true := by simp [QueryValue.truthy, hq]
  constructor
  · intro hplain
    refine ⟨by rw [searchHandler_plain ext _ q hq hplain], fun hroom => ?_⟩
    obtain ⟨_, ht⟩ := ecma_plain ext q hplain
    have hr : (ecma ext).test q r.title = true := by rw [ht]; exact decide_eq_true hmatch
    have hmem := findByTitle_mem (ecma ext) q pre post r hr (by simpa only [ht] using hroom)
    simpa only [findByTitle, ht] using hmem
  · intro E hc hr hroom
    refine ⟨findByTitle E q (pre ++ r :: post), ?_, findByTitle_mem E q pre post r hr hroom⟩
    rw [searchHandler_text E (.str q) _ htruthy hc]
    rfl

/-- Witness of C6 amended: the query "POKÉMON" finds the stored "Pokémon" under the
case table of the Latin-1 letters. -/
theorem search_query_finds_within_cap_witness :
    (searchHandler (ecma latinEngine) none (some (.str "POKÉMON"))
          ([titledRecord "Chess" 1 50] ++ titledRecord "Pokémon" 2 60 :: [])).response =
        ⟨200, .games ((([titledRecord "Chess" 1 50] ++ titledRecord "Pokémon" 2 60 :: []).filter
          (fun g => decide (containsFolded latinEngine.fold g.title "POKÉMON"))).take 20)⟩ ∧
      titledRecord "Pokémon" 2 60 ∈
        (([titledRecord "Chess" 1 50] ++ titledRecord "Pokémon" 2 60 :: []).filter
          (fun g => decide (containsFolded latinEngine.fold g.title "POKÉMON"))).take 20 :=
  ⟨((search_query_finds_within_cap latinEngine [titledRecord "Chess" 1 50] []
      (titledRecord "Pokémon" 2 60) "POKÉMON" (by decide) (by decide)).1 (by decide)).1,
    ((search_query_finds_within_cap latinEngine [titledRecord "Chess" 1 50] []
      (titledRecord "Pokémon" 2 60) "POKÉMON" (by decide) (by decide)).1 (by decide)).2
      (by decide)⟩

/-- C8, the code at the failing input: on a store whose only title is "Chess" and
which answers, the query "(" is answered 500 because the pattern does not compile,
and the query "." is answered with the record, though "Chess" contains neither
text. -/
theorem search_pattern_text_decides :
    ¬ containsIgnoreCase "Chess" "(" ∧
      searchHandler (ecma noEngine) none (some (.str "(")) [chessRecord 1 50] =
        ⟨⟨500, .failure "Erro ao buscar jogos."
          "Invalid regular expression: /(/i: Unterminated group"⟩, [chessRecord 1 50], []⟩ ∧
      ¬ containsIgnoreCase "Chess" "." ∧
      (searchHandler (ecma noEngine) none (some (.str ".")) [chessRecord 1 50]).response =
        ⟨200, .games [chessRecord 1 50]⟩ := by
  refine ⟨by decide, by decide, by decide, by decide⟩

/-- C10, the code at the failing input: the query "x|C" is answered with the record
titled "Chess", and the query "img.png" with a record titled "img0png", though
neither title contains the query text. -/
theorem search_returns_title_without_query_text :
    ¬ containsIgnoreCase "Chess" "x|C" ∧
      (searchHandler (ecma noEngine) none (some (.str "x|C")) [chessRecord 1 50]).response =
        ⟨200, .games [chessRecord 1 50]⟩ ∧
      ¬ containsIgnoreCase "img0png" "img.png" ∧
      (searchHandler (ecma noEngine) none (some (.str "img.png"))
          [⟨2, "img0png", "cover.jpg", "PC", "http://y", 60, 60⟩]).response =
        ⟨200, .games [⟨2, "img0png", "cover.jpg", "PC", "http://y", 60, 60⟩]⟩ := by
  refine ⟨by decide, by decide, by decide, by decide⟩

/-- The text search selects by title alone: changing the other fields of the stored
records changes the records returned in the same way. -/
theorem findByTitle_title_only (E : RegExpEngine) (source : String) (store : Store)
    (f : GameRecord → GameRecord) (hf : ∀ g, (f g).title = g.title) :
    findByTitle E source (store.map f) = (findByTitle E source store).map f := by
  simp only [findByTitle, List.filter_map, List.map_take]
  congr 2
  apply List.filter_congr
  intro g _
  simp [hf]

/-! ## Create, then search -/

/-- C9, counterexample: in a store that already holds 20 records titled "Chess", a
create of "Chess" is answered 201, and the search for "chess" that follows is
answered 200 with the 20 older records, not with the record just created. -/
theorem create_then_search_beyond_cap :
    (createHandler ⟨some "s3cret"⟩ (okDriver 20 20) ⟨some "s3cret", chessBody⟩
          (sameTitleStore "Chess" 20)).response =
        ⟨201, .created "Jogo adicionado com sucesso!" (chessRecord 20 20)⟩ ∧
      (searchHandler (ecma noEngine) none (some (.str "chess"))
          (createHandler ⟨some "s3cret"⟩ (okDriver 20 20) ⟨some "s3cret", chessBody⟩
            (sameTitleStore "Chess" 20)).store).response =
        ⟨200, .games (sameTitleStore "Chess" 20)⟩ ∧
      chessRecord 20 20 ∉ sameTitleStore "Chess" 20 := by
  have hcreate := createHandler_valid ⟨some "s3cret"⟩ (okDriver 20 20) chessBody
    (sameTitleStore "Chess" 20) "Chess" "img.png" "PC" "http://x" rfl rfl rfl rfl rfl (by decide)
  refine ⟨by rw [hcreate]; rfl, ?_, by decide⟩
  rw [hcreate, searchHandler_plain noEngine _ "chess" (by decide) (by decide)]
  decide

/-- A create with four non-empty string fields that is answered 201 was served by a
store that did not reject. -/
theorem createHandler_created_fault (env : Env) (d : Driver) (body : Option JsValue)
    (store : Store) (t i p l : String)
    (ht : bodyProp body "title" = some (.str t)) (hi : bodyProp body "image" = some (.str i))
    (hp : bodyProp body "platform" = some (.str p)) (hl : bodyProp body "link" = some (.str l))
    (hne : t ≠ "" ∧ i ≠ "" ∧ p ≠ "" ∧ l ≠ "")
    (hcreated : (createHandler env d ⟨env.adminSecretKey, body⟩ store).response.status = 201) :
    d.fault = none := by
  cases hf : d.fault with
  | none => rfl
  | some e =>
    exfalso
    obtain ⟨h1, h2, h3, h4⟩ := hne
    have hd : destructureError body = none := bodyProp_some_destructure body "title" _ ht
    unfold createHandler at hcreated
    simp only [ne_eq, not_true_eq_false, if_false, hd, ht, hi, hp, hl] at hcreated
    simp [truthy, JsValue.truthy, newGame, requiredString_str, h1, h2, h3, h4, hf]
      at hcreated

/-- C9, amended: after a create with the correct secret and four non-empty string
fields is answered 201, a search on a store that answers, whose query is the title
in any letter case, is answered 200 with an array that contains the record just
created: when the query has no pattern character, provided fewer than 20 of the
records stored before the create have a title containing the query; and for any
query, with any engine, whenever the pattern is accepted and matches the title, and
fewer than 20 of the records stored before the create match the pattern. -/
theorem create_then_search_finds (ext : RegExpEngine) (env : Env) (d : Driver)
    (body : Option JsValue) (store : Store) (t i p l q : String)
    (ht : bodyProp body "title" = some (.str t)) (hi : bodyProp body "image" = some (.str i))
    (hp : bodyProp body "platform" = some (.str p)) (hl : bodyProp body "link" = some (.str l))
    (hne : t ≠ "" ∧ i ≠ "" ∧ p ≠ "" ∧ l ≠ "")
    (hcreated : (createHandler env d ⟨env.adminSecretKey, body⟩ store).response.status = 201)
    (hcase : sameTextAnyCase ext.fold q t) :
    (createHandler env d ⟨env.adminSecretKey, body⟩ store).response.body =
        .created "Jogo adicionado com sucesso!" ⟨d.newId, t, i, p, l, d.now, d.now⟩ ∧
      (isPlainText q = true →
        (store.filter (fun g => decide (containsFolded ext.fold g.title q))).length < 20 →
        ∃ xs : List GameRecord,
          (searchHandler (ecma ext) none (some (.str q))
              (createHandler env d ⟨env.adminSecretKey, body⟩ store).store).response =
            ⟨200, .games xs⟩ ∧
          (⟨d.newId, t, i, p, l, d.now, d.now⟩ : GameRecord) ∈ xs) ∧
      ∀ E : RegExpEngine, E.compileError q = none → E.test q t = true →
        (store.filter (fun g => E.test q g.title)).length < 20 →
        ∃ xs : List GameRecord,
          (searchHandler E none (some (.str q))
              (createHandler env d ⟨env.adminSecretKey, body⟩ store).store).response =
            ⟨200, .games xs⟩ ∧
          (⟨d.newId, t, i, p, l, d.now, d.now⟩ : GameRecord) ∈ xs := by
  have hfault := createHandler_created_fault env d body store t i p l ht hi hp hl hne hcreated
  have hcreate := createHandler_valid env d body store t i p l hfault ht hi hp hl hne
  have hq : q ≠ "" := by
    intro h0
    subst h0
    have hnil : t.toList = [] := by
      have := hcase.symm
      simpa [sameTextAnyCase] using this
    apply hne.1
    cases t with
    | mk data =>
      simp only [String.toList] at hnil
      subst hnil
      rfl
  have htruthy : (QueryValue.str q).truthy = true := by simp [QueryValue.truthy, hq]
  have hgeneral : ∀ E : RegExpEngine, E.compileError q = none → E.test q t = true →
      (store.filter (fun g => E.test q g.title)).length < 20 →
      ∃ xs : List GameRecord,
        (searchHandler E none (some (.str q))
            (store ++ [(⟨d.newId, t, i, p, l, d.now, d.now⟩ : GameRecord)])).response =
          ⟨200, .games xs⟩ ∧
        (⟨d.newId, t, i, p, l, d.now, d.now⟩ : GameRecord) ∈ xs := by
    intro E hc hr hroom
    refine ⟨findByTitle E q (store ++ [⟨d.newId, t, i, p, l, d.now, d.now⟩]), ?_,
      findByTitle_mem E q store [] _ hr hroom⟩
    rw [searchHandler_text E (.str q) _ htruthy hc]
    rfl
  rw [hcreate]
  refine ⟨rfl, fun hplain hroom => ?_, hgeneral⟩
  obtain ⟨hc, htest⟩ := ecma_plain ext q hplain
  have hmatch : containsFolded ext.fold t q := by
    unfold containsFolded
    rw [show q.toList.map (lowerCase ext.fold) = t.toList.map (lowerCase ext.fold) from hcase]
  exact hgeneral (ecma ext) hc (by rw [htest]; exact decide_eq_true hmatch)
    (by simpa only [htest] using hroom)

/-- Witness of C9 amended: "Pokémon" created and searched as "POKÉMON" under the
case table of the Latin-1 letters, and "Super Mario Bros." created and searched as
"super mario bros.", both after a record titled "Chess". -/
theorem create_then_search_finds_witness :
    (∃ xs : List GameRecord,
        (searchHandler (ecma latinEngine) none (some (.str "POKÉMON"))
            (createHandler ⟨some "s3cret"⟩ (okDriver 7 100)
              ⟨some "s3cret", titledBody "Pokémon"⟩ [chessRecord 1 50]).store).response =
          ⟨200, .games xs⟩ ∧
        titledRecord "Pokémon" 7 100 ∈ xs) ∧
      ∃ xs : List GameRecord,
        (searchHandler (ecma noEngine) none (some (.str "super mario bros."))
            (createHandler ⟨some "s3cret"⟩ (okDriver 7 100)
              ⟨some "s3cret", titledBody "Super Mario Bros."⟩ [chessRecord 1 50]).store).response =
          ⟨200, .games xs⟩ ∧
        titledRecord "Super Mario Bros." 7 100 ∈ xs :=
  ⟨(create_then_search_finds latinEngine ⟨some "s3cret"⟩ (okDriver 7 100)
      (titledBody "Pokémon") [chessRecord 1 50] "Pokémon" "img.png" "PC" "http://x" "POKÉMON"
      rfl rfl rfl rfl (by decide) (by decide) (by decide)).2.1 (by decide) (by decide),
    (create_then_search_finds noEngine ⟨some "s3cret"⟩ (okDriver 7 100)
      (titledBody "Super Mario Bros.") [chessRecord 1 50] "Super Mario Bros." "img.png" "PC"
      "http://x" "super mario bros." rfl rfl rfl rfl (by decide) (by decide) (by decide)).2.2
      (ecma noEngine) (by decide) (by decide) (by decide)⟩

end KyottoApi
